import Mathlib

/-!
Verification of the mindnest embedding-and-retrieval pipeline.

This file gives a shallow embedding of the AI search / embedding services:

* `findSimilarChunks` models `AiSearchService.findSimilarChunks`
  (ai-search.service): access-scope resolution, the empty-scope short
  circuit, and the SQL nearest-neighbor query (filter by workspace and
  allowed spaces, order ascending by the pgvector distance operator,
  `LIMIT TOP_K`).  The pgvector cosine-distance operator is external to
  the repository, so it is a parameter `dist` of the model.
* `askQuestion` models the SSE event stream of `AiSearchService.askQuestion`;
  `controllerAsk` models `AiSearchController.ask`'s write loop with its
  try/catch.
* `generateEmbeddingsForPage` / `generateEmbeddingsForWorkspace` model
  `EmbeddingService` (ai-embedding.service): delete-then-rebuild, batching
  by `EMBEDDING_BATCH_SIZE`, row construction, and the per-page catch in
  the workspace loop.  The external text splitter and the external
  `embedMany` call are parameters; `embedMany` may fail (`Except`), and the
  vector store is explicit state (a list of rows).
* `useLicense` / `workspaceAtomGet` model the client license hook and the
  `workspaceAtom` getter.
-/

namespace Mindnest

/-- Maximum number of similar chunks to retrieve for context
(`const TOP_K = 10` in ai-search.service). -/
def TOP_K : Nat := 10

/-- Batch size for embedding calls
(`const EMBEDDING_BATCH_SIZE = 100` in ai-embedding.service). -/
def EMBEDDING_BATCH_SIZE : Nat := 100

/-- A persisted row of the `page_embeddings` table.  Vector components are
modelled as rationals; `metadataText` is the `text` field of the stored
`metadata` JSON object. -/
structure EmbeddingRow where
  pageId : String
  spaceId : String
  workspaceId : String
  modelName : String
  modelDimensions : Nat
  embedding : List ℚ
  chunkIndex : Nat
  chunkStart : Nat
  chunkLength : Nat
  metadataText : String
deriving DecidableEq, Repr

/-- Result row of the nearest-neighbor SQL query (interface
`SearchChunkResult` in ai-search.service). -/
structure SearchChunkResult where
  pageId : String
  spaceId : String
  chunkIndex : Nat
  chunkText : String
  distance : ℚ
deriving DecidableEq, Repr

/-- A source citation sent to the client (interface `SourceResult`). -/
structure SourceResult where
  pageId : String
  title : String
  slugId : String
  spaceSlug : String
  similarity : ℚ
  distance : ℚ
  chunkIndex : Nat
  excerpt : String
deriving DecidableEq, Repr

/-- A page row as seen by `buildSources` (join of `pages` and `spaces`;
`title` is nullable in the database). -/
structure PageRecord where
  id : String
  title : Option String
  slugId : String
  spaceSlug : String
deriving DecidableEq, Repr

/-- The events of the SSE stream produced by `askQuestion`: a
`data: {"content": ...}` line, a `data: {"sources": [...]}` line, the
terminal sentinel `data: [DONE]` line, or a `data: {"error": ...}` line
written by the controller's catch block. -/
inductive SSEvent where
  | content (text : String)
  | sources (srcs : List SourceResult)
  | done
  | error (msg : String)
deriving DecidableEq, Repr

/-- The set of space ids the query is scoped to: the explicit target space
when one was supplied, otherwise the resolver's answer for the user
(`getUserSpaceIdsQuery`). -/
def resolvedSpaceIds (resolver : String → List String) (userId : String)
    (spaceId? : Option String) : List String :=
  match spaceId? with
  | some s => [s]
  | none => resolver userId

/-- The rows selected by the nearest-neighbor SQL query, before projection:
filter by workspace id and `space_id = ANY(allowed)`, order ascending by the
distance of the row's embedding to the query vector, `LIMIT k`. -/
def similarRows (store : List EmbeddingRow) (dist : List ℚ → List ℚ → ℚ)
    (queryVector : List ℚ) (workspaceId : String) (allowed : List String)
    (k : Nat) : List EmbeddingRow :=
  ((store.filter fun r =>
      decide (r.workspaceId = workspaceId ∧ r.spaceId ∈ allowed)).mergeSort
    (fun a b => decide (dist a.embedding queryVector ≤ dist b.embedding queryVector))).take k

/-- Projection of a store row to the SQL result shape: `chunkText` is the
`text` field of the metadata, `distance` the computed vector distance. -/
def projectChunk (dist : List ℚ → List ℚ → ℚ) (queryVector : List ℚ)
    (r : EmbeddingRow) : SearchChunkResult :=
  { pageId := r.pageId
    spaceId := r.spaceId
    chunkIndex := r.chunkIndex
    chunkText := r.metadataText
    distance := dist r.embedding queryVector }

/-- Model of `AiSearchService.findSimilarChunks`, together with the number
of store queries issued: resolve the accessible space ids, return `[]`
without querying when that set is empty, otherwise run the
nearest-neighbor query once. -/
def findSimilarChunksRun (store : List EmbeddingRow)
    (dist : List ℚ → List ℚ → ℚ) (queryVector : List ℚ)
    (workspaceId userId : String) (resolver : String → List String)
    (spaceId? : Option String) : List SearchChunkResult × Nat :=
  let accessibleSpaceIds := resolvedSpaceIds resolver userId spaceId?
  if accessibleSpaceIds.isEmpty then ([], 0)
  else
    ((similarRows store dist queryVector workspaceId accessibleSpaceIds TOP_K).map
      (projectChunk dist queryVector), 1)

/-- The chunks returned by `findSimilarChunks` (first component of the run). -/
def findSimilarChunks (store : List EmbeddingRow)
    (dist : List ℚ → List ℚ → ℚ) (queryVector : List ℚ)
    (workspaceId userId : String) (resolver : String → List String)
    (spaceId? : Option String) : List SearchChunkResult :=
  (findSimilarChunksRun store dist queryVector workspaceId userId resolver spaceId?).1

/-- Title rendered by `buildSources`: `page.title || 'Untitled'` (a null or
empty title becomes `Untitled`). -/
def renderTitle (title : Option String) : String :=
  match title with
  | some s => if s.isEmpty then "Untitled" else s
  | none => "Untitled"

/-- Model of `AiSearchService.buildSources`: enrich each chunk with page
metadata, silently dropping chunks whose page cannot be found; similarity
is `1 - distance`, the excerpt the first 200 units of the chunk text. -/
def buildSources (pages : List PageRecord) (chunks : List SearchChunkResult) :
    List SourceResult :=
  if chunks.isEmpty then []
  else
    chunks.filterMap fun chunk =>
      match pages.find? (fun p => decide (p.id = chunk.pageId)) with
      | none => none
      | some page =>
        some
          { pageId := chunk.pageId
            title := renderTitle page.title
            slugId := page.slugId
            spaceSlug := page.spaceSlug
            similarity := 1 - chunk.distance
            distance := chunk.distance
            chunkIndex := chunk.chunkIndex
            excerpt := chunk.chunkText.take 200 }

/-- The fixed message yielded when no chunks match the query. -/
def noRelevantContentMsg : String :=
  "No relevant content found in your workspace for this query."

/-- Model of the event sequence yielded by `AiSearchService.askQuestion`.
The language model's text stream is external and appears as the parameter
`textParts` (its increments in production order); `pages` is the page data
`buildSources` reads. -/
def askQuestion (store : List EmbeddingRow) (dist : List ℚ → List ℚ → ℚ)
    (queryVector : List ℚ) (workspaceId userId : String)
    (resolver : String → List String) (spaceId? : Option String)
    (textParts : List String) (pages : List PageRecord) : List SSEvent :=
  let chunks := findSimilarChunks store dist queryVector workspaceId userId resolver spaceId?
  if chunks.isEmpty then
    [SSEvent.content noRelevantContentMsg, SSEvent.sources [], SSEvent.done]
  else
    textParts.map SSEvent.content ++
      [SSEvent.sources (buildSources pages chunks), SSEvent.done]

/-- Model of `AiSearchController.ask`'s write loop: the events the
generator yielded before completing or throwing are written in order;
when the generator threw, the catch block writes one error event and the
response is then ended without any further write. -/
def controllerAsk (yielded : List SSEvent) (thrown : Option String) :
    List SSEvent :=
  yielded ++ (match thrown with
    | none => []
    | some m => [SSEvent.error m])

/-- A page as read by the embedding service (interface `PageForEmbedding`;
`textContent` is nullable). -/
structure PageForEmbedding where
  id : String
  spaceId : String
  workspaceId : String
  textContent : Option String
deriving DecidableEq, Repr

/-- Model of `EmbeddingService.deleteEmbeddingsForPage`:
`DELETE FROM page_embeddings WHERE page_id = pageId`. -/
def deleteEmbeddingsForPage (store : List EmbeddingRow) (pageId : String) :
    List EmbeddingRow :=
  store.filter fun r => decide (r.pageId ≠ pageId)

/-- The rows built for one batch: row `j` of the batch carries chunk index
`i + j` (`i` the batch's start offset), vector `embeddings[j]`,
`chunkStart` 0, `chunkLength` the chunk text's length, and the chunk text
as metadata. -/
def batchRows (page : PageForEmbedding) (modelName : String)
    (modelDimensions : Nat) (batch : List String)
    (embeddings : List (List ℚ)) (i : Nat) : List EmbeddingRow :=
  batch.enum.map fun bi =>
    { pageId := page.id
      spaceId := page.spaceId
      workspaceId := page.workspaceId
      modelName := modelName
      modelDimensions := modelDimensions
      embedding := embeddings.getD bi.1 []
      chunkIndex := i + bi.1
      chunkStart := 0
      chunkLength := bi.2.length
      metadataText := bi.2 }

/-- Outcome of one page regeneration as observed through the store: the
final store, the list of batches passed to `embedMany` (one entry per
embedding call, in call order), and the error that aborted the run, if
any. -/
structure PageRunResult where
  store : List EmbeddingRow
  calls : List (List String)
  err : Option String
deriving DecidableEq, Repr

/-- The batch loop of `generateEmbeddingsForPage`
(`for (let i = 0; i < chunks.length; i += EMBEDDING_BATCH_SIZE)`): take the
next `EMBEDDING_BATCH_SIZE` chunks, call `embedMany` once on them, insert
one row per chunk, and continue.  A failing embedding call aborts the loop
with the store's inserts so far kept (each insert was already awaited). -/
def processBatches (embedF : List String → Except String (List (List ℚ)))
    (page : PageForEmbedding) (modelName : String) (modelDimensions : Nat) :
    List String → Nat → List EmbeddingRow → PageRunResult
  | chunks, i, store =>
    if h : chunks.isEmpty then ⟨store, [], none⟩
    else
      let batch := chunks.take EMBEDDING_BATCH_SIZE
      match embedF batch with
      | Except.error e => ⟨store, [batch], some e⟩
      | Except.ok embeddings =>
        let rest := processBatches embedF page modelName modelDimensions
          (chunks.drop EMBEDDING_BATCH_SIZE) (i + EMBEDDING_BATCH_SIZE)
          (store ++ batchRows page modelName modelDimensions batch embeddings i)
        ⟨rest.store, batch :: rest.calls, rest.err⟩
termination_by chunks => chunks.length
decreasing_by
  simp only [List.length_drop, EMBEDDING_BATCH_SIZE]
  have hl : chunks ≠ [] := by simpa using h
  have : 0 < chunks.length := List.length_pos.mpr hl
  omega

/-- The characters of a string after stripping leading and trailing
whitespace; models JavaScript's `String.prototype.trim`, so that
`textContent.trim().length === 0` becomes `(trimmedChars t).isEmpty`. -/
def trimmedChars (s : String) : List Char :=
  ((s.data.dropWhile Char.isWhitespace).reverse.dropWhile
    Char.isWhitespace).reverse

/-- Model of `EmbeddingService.generateEmbeddingsForPage`: return with no
effect when the text is null, empty or whitespace-only; otherwise delete
the page's existing rows, split the text (the external splitter is the
parameter `splitText`), stop if no chunks, and otherwise run the batch
loop. -/
def generateEmbeddingsForPage (embedF : List String → Except String (List (List ℚ)))
    (splitText : String → List String) (modelName : String)
    (modelDimensions : Nat) (page : PageForEmbedding)
    (store : List EmbeddingRow) : PageRunResult :=
  match page.textContent with
  | none => ⟨store, [], none⟩
  | some t =>
    if (trimmedChars t).isEmpty then ⟨store, [], none⟩
    else if (splitText t).isEmpty then
      ⟨deleteEmbeddingsForPage store page.id, [], none⟩
    else
      processBatches embedF page modelName modelDimensions (splitText t) 0
        (deleteEmbeddingsForPage store page.id)

/-- Outcome of one page inside a workspace run: skipped for empty text,
processed on success, failed when the page's regeneration threw (and was
caught and logged). -/
inductive PageOutcome where
  | skipped
  | processed
  | failed
deriving DecidableEq, Repr

/-- One iteration of `generateEmbeddingsForWorkspace`'s page loop: a page
with no non-empty text is counted as skipped (`continue`); otherwise the
page is regenerated inside a try/catch, so a thrown error only marks the
page failed and the loop goes on. -/
def workspacePageStep (embedF : List String → Except String (List (List ℚ)))
    (splitText : String → List String) (modelName : String)
    (modelDimensions : Nat)
    (acc : List EmbeddingRow × List (PageForEmbedding × PageOutcome))
    (page : PageForEmbedding) :
    List EmbeddingRow × List (PageForEmbedding × PageOutcome) :=
  match page.textContent with
  | none => (acc.1, acc.2 ++ [(page, PageOutcome.skipped)])
  | some t =>
    if (trimmedChars t).isEmpty then
      (acc.1, acc.2 ++ [(page, PageOutcome.skipped)])
    else
      ((generateEmbeddingsForPage embedF splitText modelName modelDimensions
          page acc.1).store,
        acc.2 ++ [(page,
          match (generateEmbeddingsForPage embedF splitText modelName
              modelDimensions page acc.1).err with
          | none => PageOutcome.processed
          | some _ => PageOutcome.failed)])

/-- Model of `EmbeddingService.generateEmbeddingsForWorkspace`'s page loop:
pages with no non-empty text are skipped; every other page is attempted,
and an error from `generateEmbeddingsForPage` is caught so that the loop
continues with the next page.  Returns the final store and the per-page
trace in processing order. -/
def generateEmbeddingsForWorkspace
    (embedF : List String → Except String (List (List ℚ)))
    (splitText : String → List String) (modelName : String)
    (modelDimensions : Nat) (pages : List PageForEmbedding)
    (store : List EmbeddingRow) :
    List EmbeddingRow × List (PageForEmbedding × PageOutcome) :=
  pages.foldl (workspacePageStep embedF splitText modelName modelDimensions)
    (store, [])

/-- A workspace as stored client-side (fields the license check touches). -/
structure IWorkspace where
  id : String
  hasLicenseKey : Bool
deriving DecidableEq, Repr

/-- The client-side current-user state (`currentUserAtom` content). -/
structure ICurrentUser where
  userId : String
  workspace : Option IWorkspace
deriving DecidableEq, Repr

/-- Model of the `useLicense` hook: the original read
`currentUser?.workspace?.hasLicenseKey`, but the shipped code returns the
constant `true` for every state. -/
def useLicense (currentUser : Option ICurrentUser) : Bool :=
  true

/-- Model of the `workspaceAtom` getter: returns the stored workspace with
`hasLicenseKey` forced to `true` whenever a workspace is present, `none`
otherwise. -/
def workspaceAtomGet (currentUser : Option ICurrentUser) : Option IWorkspace :=
  let workspace := currentUser.bind fun cu => cu.workspace
  match workspace with
  | some w => some { w with hasLicenseKey := true }
  | none => none

/-- Recognizer for error events. -/
def eventIsError : SSEvent → Bool
  | SSEvent.error _ => true
  | _ => false

/-- The partition of a chunk list into consecutive batches of at most
`EMBEDDING_BATCH_SIZE` chunks, in loop order. -/
def chunkBatches (chunks : List String) : List (List String) :=
  if h : chunks.isEmpty then []
  else
    chunks.take EMBEDDING_BATCH_SIZE ::
      chunkBatches (chunks.drop EMBEDDING_BATCH_SIZE)
termination_by chunks.length
decreasing_by
  simp only [List.length_drop, EMBEDDING_BATCH_SIZE]
  have hl : chunks ≠ [] := by simpa using h
  have : 0 < chunks.length := List.length_pos.mpr hl
  omega

/-- The vectors a successful embedding call returns for a batch. -/
def embedVectors (embedF : List String → Except String (List (List ℚ)))
    (b : List String) : List (List ℚ) :=
  match embedF b with
  | Except.ok vs => vs
  | Except.error _ => []

/-- Whether a page has non-empty text (the loop's skip condition). -/
def hasText (page : PageForEmbedding) : Bool :=
  match page.textContent with
  | none => false
  | some t => !(trimmedChars t).isEmpty

/-- The outcome of one page in a workspace run, as a function of that page
alone: skipped for empty text, otherwise failed exactly when that page's
own regeneration throws. -/
def pageOutcome (embedF : List String → Except String (List (List ℚ)))
    (splitText : String → List String) (mn : String) (dims : Nat)
    (page : PageForEmbedding) : PageOutcome :=
  match page.textContent with
  | none => PageOutcome.skipped
  | some t =>
    if (trimmedChars t).isEmpty then PageOutcome.skipped
    else
      match (generateEmbeddingsForPage embedF splitText mn dims page []).err with
      | none => PageOutcome.processed
      | some _ => PageOutcome.failed

/-! Lemmas about the nearest-neighbor query. -/

theorem mem_similarRows {store : List EmbeddingRow}
    {dist : List ℚ → List ℚ → ℚ} {queryVector : List ℚ}
    {workspaceId : String} {allowed : List String} {k : Nat}
    {r : EmbeddingRow}
    (hr : r ∈ similarRows store dist queryVector workspaceId allowed k) :
    r ∈ store ∧ r.workspaceId = workspaceId ∧ r.spaceId ∈ allowed := by
  unfold similarRows at hr
  have h1 := List.mem_of_mem_take hr
  have h2 := (List.mergeSort_perm _ _).mem_iff.mp h1
  have h3 := List.mem_filter.mp h2
  exact ⟨h3.1, of_decide_eq_true h3.2⟩

theorem length_similarRows (store : List EmbeddingRow)
    (dist : List ℚ → List ℚ → ℚ) (queryVector : List ℚ)
    (workspaceId : String) (allowed : List String) (k : Nat) :
    (similarRows store dist queryVector workspaceId allowed k).length ≤ k := by
  unfold similarRows
  simpa using Nat.min_le_left k _

theorem sorted_similarRows (store : List EmbeddingRow)
    (dist : List ℚ → List ℚ → ℚ) (queryVector : List ℚ)
    (workspaceId : String) (allowed : List String) (k : Nat) :
    List.Sorted
      (fun a b : EmbeddingRow =>
        dist a.embedding queryVector ≤ dist b.embedding queryVector)
      (similarRows store dist queryVector workspaceId allowed k) := by
  unfold similarRows
  apply List.Pairwise.sublist (List.take_sublist _ _)
  have hs := @List.sorted_mergeSort EmbeddingRow
    (fun a b : EmbeddingRow =>
      decide (dist a.embedding queryVector ≤ dist b.embedding queryVector))
    (fun a b c hab hbc =>
      decide_eq_true (le_trans (of_decide_eq_true hab) (of_decide_eq_true hbc)))
    (fun a b => by
      rcases le_total (dist a.embedding queryVector) (dist b.embedding queryVector)
        with h | h <;> simp [h])
    (store.filter fun r =>
      decide (r.workspaceId = workspaceId ∧ r.spaceId ∈ allowed))
  exact hs.imp fun h => of_decide_eq_true h

/-- C1: nearest-neighbor retrieval is access-scoped, ordered, and bounded:
every returned chunk lies in an allowed space and comes from a stored row
of the queried workspace; the results are sorted ascending by distance and
number at most `TOP_K = 10`. -/
theorem findSimilarChunks_access_scoped (store : List EmbeddingRow)
    (dist : List ℚ → List ℚ → ℚ) (queryVector : List ℚ)
    (workspaceId userId : String) (resolver : String → List String)
    (spaceId? : Option String) :
    (∀ c ∈ findSimilarChunks store dist queryVector workspaceId userId
        resolver spaceId?,
      c.spaceId ∈ resolvedSpaceIds resolver userId spaceId? ∧
      ∃ r ∈ store, r.workspaceId = workspaceId ∧
        projectChunk dist queryVector r = c) ∧
    (findSimilarChunks store dist queryVector workspaceId userId resolver
        spaceId?).length ≤ TOP_K ∧
    List.Sorted (fun a b : SearchChunkResult => a.distance ≤ b.distance)
      (findSimilarChunks store dist queryVector workspaceId userId resolver
        spaceId?) := by
  unfold findSimilarChunks findSimilarChunksRun
  by_cases he : (resolvedSpaceIds resolver userId spaceId?).isEmpty
  · simp [he]
  · simp only [he, Bool.false_eq_true, if_false]
    refine ⟨?_, ?_, ?_⟩
    · intro c hc
      simp only [List.mem_map] at hc
      obtain ⟨r, hr, hrc⟩ := hc
      obtain ⟨hstore, hws, hsp⟩ := mem_similarRows hr
      refine ⟨?_, r, hstore, hws, hrc⟩
      rw [← hrc]
      exact hsp
    · simpa using length_similarRows store dist queryVector workspaceId _ TOP_K
    · show List.Pairwise _ (List.map _ _)
      rw [List.pairwise_map]
      exact (sorted_similarRows store dist queryVector workspaceId _ TOP_K).imp
        fun h => h

/-- Witness for C1: a store holding a workspace-W row in space A at
distance 1/10 and a strictly closer row in space C at distance 1/100; a
user whose accessible spaces are A and B. The instantiated theorem shows
every returned chunk lies in an allowed space (so never space C), results
are sorted and at most ten. -/
theorem findSimilarChunks_access_scoped_witness :
    (∀ c ∈ findSimilarChunks
        [{ pageId := "p1", spaceId := "A", workspaceId := "W",
           modelName := "m", modelDimensions := 1, embedding := [(1 : ℚ)/10],
           chunkIndex := 0, chunkStart := 0, chunkLength := 2,
           metadataText := "aa" },
         { pageId := "p2", spaceId := "C", workspaceId := "W",
           modelName := "m", modelDimensions := 1, embedding := [(1 : ℚ)/100],
           chunkIndex := 0, chunkStart := 0, chunkLength := 2,
           metadataText := "cc" }]
        (fun e _ => e.headD 0) [(0 : ℚ)] "W" "u" (fun _ => ["A", "B"]) none,
      c.spaceId ∈ resolvedSpaceIds (fun _ => ["A", "B"]) "u" none ∧
      ∃ r ∈ [{ pageId := "p1", spaceId := "A", workspaceId := "W",
               modelName := "m", modelDimensions := 1,
               embedding := [(1 : ℚ)/10], chunkIndex := 0, chunkStart := 0,
               chunkLength := 2, metadataText := "aa" },
             { pageId := "p2", spaceId := "C", workspaceId := "W",
               modelName := "m", modelDimensions := 1,
               embedding := [(1 : ℚ)/100], chunkIndex := 0, chunkStart := 0,
               chunkLength := 2, metadataText := "cc" }],
        r.workspaceId = "W" ∧
        projectChunk (fun e _ => e.headD 0) [(0 : ℚ)] r = c) ∧
    (findSimilarChunks
        [{ pageId := "p1", spaceId := "A", workspaceId := "W",
           modelName := "m", modelDimensions := 1, embedding := [(1 : ℚ)/10],
           chunkIndex := 0, chunkStart := 0, chunkLength := 2,
           metadataText := "aa" },
         { pageId := "p2", spaceId := "C", workspaceId := "W",
           modelName := "m", modelDimensions := 1, embedding := [(1 : ℚ)/100],
           chunkIndex := 0, chunkStart := 0, chunkLength := 2,
           metadataText := "cc" }]
        (fun e _ => e.headD 0) [(0 : ℚ)] "W" "u" (fun _ => ["A", "B"])
        none).length ≤ TOP_K ∧
    List.Sorted (fun a b : SearchChunkResult => a.distance ≤ b.distance)
      (findSimilarChunks
        [{ pageId := "p1", spaceId := "A", workspaceId := "W",
           modelName := "m", modelDimensions := 1, embedding := [(1 : ℚ)/10],
           chunkIndex := 0, chunkStart := 0, chunkLength := 2,
           metadataText := "aa" },
         { pageId := "p2", spaceId := "C", workspaceId := "W",
           modelName := "m", modelDimensions := 1, embedding := [(1 : ℚ)/100],
           chunkIndex := 0, chunkStart := 0, chunkLength := 2,
           metadataText := "cc" }]
        (fun e _ => e.headD 0) [(0 : ℚ)] "W" "u" (fun _ => ["A", "B"]) none) :=
  findSimilarChunks_access_scoped _ _ _ _ _ _ _

/-- C4: with no explicit target space and an access resolver yielding no
spaces, retrieval returns the empty list and issues zero store queries. -/
theorem findSimilarChunks_empty_access_short_circuit
    (store : List EmbeddingRow) (dist : List ℚ → List ℚ → ℚ)
    (queryVector : List ℚ) (workspaceId userId : String)
    (resolver : String → List String)
    (h : resolver userId = []) :
    findSimilarChunksRun store dist queryVector workspaceId userId resolver
      none = ([], 0) := by
  unfold findSimilarChunksRun resolvedSpaceIds
  simp [h]

/-- Witness for C4: a resolver returning no spaces on a one-row store. -/
theorem findSimilarChunks_empty_access_short_circuit_witness :
    (fun _ : String => ([] : List String)) "u" = [] ∧
    findSimilarChunksRun
      [{ pageId := "p1", spaceId := "A", workspaceId := "W",
         modelName := "m", modelDimensions := 1, embedding := [(1 : ℚ)/10],
         chunkIndex := 0, chunkStart := 0, chunkLength := 2,
         metadataText := "aa" }]
      (fun e _ => e.headD 0) [(0 : ℚ)] "W" "u"
      (fun _ => ([] : List String)) none = ([], 0) :=
  ⟨rfl, findSimilarChunks_empty_access_short_circuit _ _ _ _ _ _ rfl⟩

/-- C2 counterexample: when the generator throws before yielding anything,
the endpoint writes the single error event and then ends the response; the
terminal sentinel line (`data: [DONE]`) is never written, so the error
event is not followed by the sentinel. -/
theorem controllerAsk_error_missing_sentinel :
    controllerAsk [] (some "boom") = [SSEvent.error "boom"] ∧
    SSEvent.done ∉ controllerAsk [] (some "boom") := by
  constructor
  · rfl
  · simp [controllerAsk]

/-- C2 amended: on a failure mid-stream the endpoint emits exactly one
error event as the final event of the stream and then terminates it; no
content events (and no terminal sentinel) follow the error event. -/
theorem controllerAsk_error_terminal (yielded : List SSEvent) (m : String)
    (h : yielded.countP eventIsError = 0) :
    controllerAsk yielded (some m) = yielded ++ [SSEvent.error m] ∧
    (controllerAsk yielded (some m)).countP eventIsError = 1 ∧
    (controllerAsk yielded (some m)).getLast? = some (SSEvent.error m) := by
  refine ⟨rfl, ?_, ?_⟩
  · show (yielded ++ [SSEvent.error m]).countP eventIsError = 1
    rw [List.countP_append, h]
    rfl
  · exact List.getLast?_concat yielded

/-- Witness for C2's amended theorem: one content event already written,
then a failure. -/
theorem controllerAsk_error_terminal_witness :
    [SSEvent.content "hi"].countP eventIsError = 0 ∧
    (controllerAsk [SSEvent.content "hi"] (some "x") =
        [SSEvent.content "hi"] ++ [SSEvent.error "x"] ∧
      (controllerAsk [SSEvent.content "hi"] (some "x")).countP eventIsError = 1 ∧
      (controllerAsk [SSEvent.content "hi"] (some "x")).getLast? =
        some (SSEvent.error "x")) :=
  ⟨rfl, controllerAsk_error_terminal [SSEvent.content "hi"] "x" rfl⟩

/-- C3: the event sequence of `askQuestion` is always zero or more content
events, then exactly one sources event, then the terminal marker; when
retrieval found chunks, the content events are exactly the model's text
increments in production order. -/
theorem askQuestion_stream_order (store : List EmbeddingRow)
    (dist : List ℚ → List ℚ → ℚ) (queryVector : List ℚ)
    (workspaceId userId : String) (resolver : String → List String)
    (spaceId? : Option String) (textParts : List String)
    (pages : List PageRecord) :
    ∃ cs srcs,
      askQuestion store dist queryVector workspaceId userId resolver spaceId?
          textParts pages
        = cs.map SSEvent.content ++ [SSEvent.sources srcs, SSEvent.done] ∧
      (findSimilarChunks store dist queryVector workspaceId userId resolver
          spaceId? ≠ [] → cs = textParts) := by
  unfold askQuestion
  by_cases hc : (findSimilarChunks store dist queryVector workspaceId userId
      resolver spaceId?).isEmpty
  · refine ⟨[noRelevantContentMsg], [], by simp [hc], fun hne => ?_⟩
    exact absurd (List.isEmpty_iff.mp hc) hne
  · exact ⟨textParts,
      buildSources pages (findSimilarChunks store dist queryVector workspaceId
        userId resolver spaceId?),
      by simp [hc], fun _ => rfl⟩

/-- Witness for C3: an empty store (no chunks retrieved) with one model
text increment pending. -/
theorem askQuestion_stream_order_witness :
    ∃ cs srcs,
      askQuestion [] (fun e _ => e.headD 0) [(0 : ℚ)] "W" "u"
          (fun _ => ["A"]) none ["hello"] []
        = cs.map SSEvent.content ++ [SSEvent.sources srcs, SSEvent.done] ∧
      (findSimilarChunks [] (fun e _ => e.headD 0) [(0 : ℚ)] "W" "u"
          (fun _ => ["A"]) none ≠ [] → cs = ["hello"]) :=
  askQuestion_stream_order [] (fun e _ => e.headD 0) [(0 : ℚ)] "W" "u"
    (fun _ => ["A"]) none ["hello"] []

/-! Lemmas about the batch loop of the embedding pipeline. -/

theorem batchRows_map_chunkIndex (page : PageForEmbedding) (mn : String)
    (dims : Nat) (batch : List String) (embs : List (List ℚ)) (i : Nat) :
    (batchRows page mn dims batch embs i).map (fun r => r.chunkIndex) =
      List.range' i batch.length := by
  unfold batchRows
  rw [List.map_map, List.range'_eq_map_range, ← List.enum_map_fst,
    List.map_map]
  rfl

theorem batchRows_map_metadataText (page : PageForEmbedding) (mn : String)
    (dims : Nat) (batch : List String) (embs : List (List ℚ)) (i : Nat) :
    (batchRows page mn dims batch embs i).map (fun r => r.metadataText) =
      batch := by
  unfold batchRows
  rw [List.map_map]
  exact List.enum_map_snd batch

theorem batchRows_map_embedding (page : PageForEmbedding) (mn : String)
    (dims : Nat) (batch : List String) (embs : List (List ℚ)) (i : Nat)
    (hlen : embs.length = batch.length) :
    (batchRows page mn dims batch embs i).map (fun r => r.embedding) =
      embs := by
  unfold batchRows
  rw [List.map_map]
  apply List.ext_getElem
  · simp [List.enum_length, hlen]
  · intro n h1 h2
    simp only [List.getElem_map, List.getElem_enum, Function.comp]
    exact List.getD_eq_getElem embs [] h2

theorem mem_batchRows {page : PageForEmbedding} {mn : String} {dims : Nat}
    {batch : List String} {embs : List (List ℚ)} {i : Nat} {r : EmbeddingRow}
    (hr : r ∈ batchRows page mn dims batch embs i) :
    r.pageId = page.id ∧ r.chunkStart = 0 ∧
      r.chunkLength = r.metadataText.length := by
  unfold batchRows at hr
  simp only [List.mem_map] at hr
  obtain ⟨bi, hbi, rfl⟩ := hr
  exact ⟨rfl, rfl, rfl⟩

theorem chunkBatches_nil : chunkBatches [] = [] := by
  rw [chunkBatches]
  rfl

theorem chunkBatches_cons {chunks : List String}
    (hc : ¬chunks.isEmpty = true) :
    chunkBatches chunks =
      chunks.take EMBEDDING_BATCH_SIZE ::
        chunkBatches (chunks.drop EMBEDDING_BATCH_SIZE) := by
  rw [chunkBatches]
  rw [dif_neg hc]

theorem processBatches_nil
    (embedF : List String → Except String (List (List ℚ)))
    (page : PageForEmbedding) (mn : String) (dims : Nat) (i : Nat)
    (store : List EmbeddingRow) :
    processBatches embedF page mn dims [] i store = ⟨store, [], none⟩ := by
  rw [processBatches]
  rfl

theorem processBatches_cons_ok
    {embedF : List String → Except String (List (List ℚ))}
    (page : PageForEmbedding) (mn : String) (dims : Nat)
    {chunks : List String} (hc : ¬chunks.isEmpty = true)
    {vs : List (List ℚ)}
    (hvs : embedF (chunks.take EMBEDDING_BATCH_SIZE) = Except.ok vs)
    (i : Nat) (store : List EmbeddingRow) :
    processBatches embedF page mn dims chunks i store =
      ⟨(processBatches embedF page mn dims (chunks.drop EMBEDDING_BATCH_SIZE)
          (i + EMBEDDING_BATCH_SIZE)
          (store ++ batchRows page mn dims (chunks.take EMBEDDING_BATCH_SIZE)
            vs i)).store,
        chunks.take EMBEDDING_BATCH_SIZE ::
          (processBatches embedF page mn dims (chunks.drop EMBEDDING_BATCH_SIZE)
            (i + EMBEDDING_BATCH_SIZE)
            (store ++ batchRows page mn dims (chunks.take EMBEDDING_BATCH_SIZE)
              vs i)).calls,
        (processBatches embedF page mn dims (chunks.drop EMBEDDING_BATCH_SIZE)
          (i + EMBEDDING_BATCH_SIZE)
          (store ++ batchRows page mn dims (chunks.take EMBEDDING_BATCH_SIZE)
            vs i)).err⟩ := by
  rw [processBatches, dif_neg hc]
  simp only [hvs]

theorem processBatches_cons_err
    {embedF : List String → Except String (List (List ℚ))}
    (page : PageForEmbedding) (mn : String) (dims : Nat)
    {chunks : List String} (hc : ¬chunks.isEmpty = true) {e : String}
    (he : embedF (chunks.take EMBEDDING_BATCH_SIZE) = Except.error e)
    (i : Nat) (store : List EmbeddingRow) :
    processBatches embedF page mn dims chunks i store =
      ⟨store, [chunks.take EMBEDDING_BATCH_SIZE], some e⟩ := by
  rw [processBatches, dif_neg hc]
  simp only [he]

/-- Structure of a fully successful batch loop: the store grows by one row
per chunk; the chunk indices of the new rows are `i, i+1, ...` in order;
their metadata texts are exactly the chunks; their vectors are exactly the
vectors the embedding calls returned (one per chunk); the calls are the
consecutive batches; no error is reported. -/
theorem processBatches_ok_spec
    (embedF : List String → Except String (List (List ℚ)))
    (page : PageForEmbedding) (mn : String) (dims : Nat)
    (hok : ∀ b, ∃ vs, embedF b = Except.ok vs ∧ vs.length = b.length) :
    ∀ n chunks i store, chunks.length ≤ n →
    ∃ rs : List EmbeddingRow,
      processBatches embedF page mn dims chunks i store =
        ⟨store ++ rs, chunkBatches chunks, none⟩ ∧
      rs.map (fun r => r.chunkIndex) = List.range' i chunks.length ∧
      rs.map (fun r => r.metadataText) = chunks ∧
      rs.map (fun r => r.embedding) =
        ((chunkBatches chunks).map (embedVectors embedF)).flatten ∧
      ∀ r ∈ rs, r.pageId = page.id ∧ r.chunkStart = 0 ∧
        r.chunkLength = r.metadataText.length := by
  intro n
  induction n with
  | zero =>
    intro chunks i store hle
    have hnil : chunks = [] := List.length_eq_zero.mp (Nat.le_zero.mp hle)
    subst hnil
    refine ⟨[], ?_, rfl, rfl, ?_, by simp⟩
    · rw [processBatches_nil, chunkBatches_nil]
      simp
    · rw [chunkBatches_nil]
      simp
  | succ n ih =>
    intro chunks i store hle
    by_cases hc : chunks.isEmpty
    · have hnil : chunks = [] := List.isEmpty_iff.mp hc
      subst hnil
      refine ⟨[], ?_, rfl, rfl, ?_, by simp⟩
      · rw [processBatches_nil, chunkBatches_nil]
        simp
      · rw [chunkBatches_nil]
        simp
    · have hpos : 0 < chunks.length :=
        List.length_pos.mpr (by simpa using hc)
      obtain ⟨vs, hvs, hvslen⟩ := hok (chunks.take EMBEDDING_BATCH_SIZE)
      have hdroplen : (chunks.drop EMBEDDING_BATCH_SIZE).length ≤ n := by
        rw [List.length_drop]
        simp only [EMBEDDING_BATCH_SIZE]
        omega
      obtain ⟨rs', hrun, hidx, htext, hemb, hall⟩ :=
        ih (chunks.drop EMBEDDING_BATCH_SIZE) (i + EMBEDDING_BATCH_SIZE)
          (store ++ batchRows page mn dims (chunks.take EMBEDDING_BATCH_SIZE) vs i)
          hdroplen
      refine ⟨batchRows page mn dims (chunks.take EMBEDDING_BATCH_SIZE) vs i ++ rs',
        ?_, ?_, ?_, ?_, ?_⟩
      · rw [processBatches_cons_ok page mn dims hc hvs i store, hrun,
          chunkBatches_cons hc]
        simp [List.append_assoc]
      · rw [List.map_append, batchRows_map_chunkIndex, hidx]
        rw [List.length_take, List.length_drop]
        rcases le_or_lt chunks.length EMBEDDING_BATCH_SIZE with hsm | hbg
        · have h1 : min EMBEDDING_BATCH_SIZE chunks.length = chunks.length :=
            min_eq_right hsm
          have h2 : chunks.length - EMBEDDING_BATCH_SIZE = 0 := by omega
          rw [h1, h2]
          simp
        · have h1 : min EMBEDDING_BATCH_SIZE chunks.length =
              EMBEDDING_BATCH_SIZE := min_eq_left (le_of_lt hbg)
          rw [h1]
          have hra := List.range'_append i EMBEDDING_BATCH_SIZE
            (chunks.length - EMBEDDING_BATCH_SIZE) 1
          simp only [one_mul] at hra
          rw [hra]
          congr 1
          omega
      · rw [List.map_append, batchRows_map_metadataText, htext,
          List.take_append_drop]
      · rw [List.map_append,
          batchRows_map_embedding page mn dims _ vs i
            (by rw [hvslen]),
          hemb]
        rw [chunkBatches_cons hc]
        rw [List.map_cons, List.flatten_cons]
        congr 1
        unfold embedVectors
        rw [hvs]
      · intro r hr
        rcases List.mem_append.mp hr with h | h
        · exact mem_batchRows h
        · exact hall r h

/-- Membership in the store after the batch loop, with no success
assumption: every row is either a pre-existing row or one of the inserted
rows, and every inserted row has `chunkStart = 0` and
`chunkLength` equal to its metadata text's length. -/
theorem mem_processBatches_store
    (embedF : List String → Except String (List (List ℚ)))
    (page : PageForEmbedding) (mn : String) (dims : Nat) :
    ∀ n chunks i store, chunks.length ≤ n →
    ∀ r ∈ (processBatches embedF page mn dims chunks i store).store,
      r ∈ store ∨ (r.pageId = page.id ∧ r.chunkStart = 0 ∧
        r.chunkLength = r.metadataText.length) := by
  intro n
  induction n with
  | zero =>
    intro chunks i store hle r hr
    have hnil : chunks = [] := List.length_eq_zero.mp (Nat.le_zero.mp hle)
    subst hnil
    rw [processBatches_nil] at hr
    exact Or.inl hr
  | succ n ih =>
    intro chunks i store hle r hr
    by_cases hc : chunks.isEmpty
    · have hnil : chunks = [] := List.isEmpty_iff.mp hc
      subst hnil
      rw [processBatches_nil] at hr
      exact Or.inl hr
    · have hpos : 0 < chunks.length :=
        List.length_pos.mpr (by simpa using hc)
      rcases hemb : embedF (chunks.take EMBEDDING_BATCH_SIZE) with e | vs
      · rw [processBatches_cons_err page mn dims hc hemb i store] at hr
        exact Or.inl hr
      · rw [processBatches_cons_ok page mn dims hc hemb i store] at hr
        have hdroplen : (chunks.drop EMBEDDING_BATCH_SIZE).length ≤ n := by
          rw [List.length_drop]
          simp only [EMBEDDING_BATCH_SIZE]
          omega
        have hmem := ih (chunks.drop EMBEDDING_BATCH_SIZE)
          (i + EMBEDDING_BATCH_SIZE)
          (store ++ batchRows page mn dims (chunks.take EMBEDDING_BATCH_SIZE) vs i)
          hdroplen r hr
        rcases hmem with h | h
        · rcases List.mem_append.mp h with h' | h'
          · exact Or.inl h'
          · exact Or.inr (mem_batchRows h')
        · exact Or.inr h

theorem chunkBatches_length :
    ∀ n chunks, chunks.length ≤ n →
      (chunkBatches chunks).length =
        (chunks.length + (EMBEDDING_BATCH_SIZE - 1)) / EMBEDDING_BATCH_SIZE := by
  intro n
  induction n with
  | zero =>
    intro chunks hle
    have hnil : chunks = [] := List.length_eq_zero.mp (Nat.le_zero.mp hle)
    subst hnil
    rw [chunkBatches_nil]
    rfl
  | succ n ih =>
    intro chunks hle
    by_cases hc : chunks.isEmpty
    · have hnil : chunks = [] := List.isEmpty_iff.mp hc
      subst hnil
      rw [chunkBatches_nil]
      rfl
    · have hpos : 0 < chunks.length :=
        List.length_pos.mpr (by simpa using hc)
      rw [chunkBatches_cons hc, List.length_cons,
        ih _ (by rw [List.length_drop]; simp only [EMBEDDING_BATCH_SIZE]; omega),
        List.length_drop]
      simp only [EMBEDDING_BATCH_SIZE]
      omega

theorem chunkBatches_batch_le :
    ∀ n chunks, chunks.length ≤ n →
      ∀ b ∈ chunkBatches chunks, b.length ≤ EMBEDDING_BATCH_SIZE := by
  intro n
  induction n with
  | zero =>
    intro chunks hle b hb
    have hnil : chunks = [] := List.length_eq_zero.mp (Nat.le_zero.mp hle)
    subst hnil
    rw [chunkBatches_nil] at hb
    exact absurd hb (by simp)
  | succ n ih =>
    intro chunks hle b hb
    by_cases hc : chunks.isEmpty
    · have hnil : chunks = [] := List.isEmpty_iff.mp hc
      subst hnil
      rw [chunkBatches_nil] at hb
      exact absurd hb (by simp)
    · rw [chunkBatches_cons hc] at hb
      rcases List.mem_cons.mp hb with hb | hb
      · subst hb
        rw [List.length_take]
        exact min_le_left _ _
      · exact ih _ (by
          rw [List.length_drop]
          have hpos : 0 < chunks.length :=
            List.length_pos.mpr (by simpa using hc)
          simp only [EMBEDDING_BATCH_SIZE]
          omega) b hb

theorem chunkBatches_flatten :
    ∀ n chunks, chunks.length ≤ n → (chunkBatches chunks).flatten = chunks := by
  intro n
  induction n with
  | zero =>
    intro chunks hle
    have hnil : chunks = [] := List.length_eq_zero.mp (Nat.le_zero.mp hle)
    subst hnil
    rw [chunkBatches_nil]
    rfl
  | succ n ih =>
    intro chunks hle
    by_cases hc : chunks.isEmpty
    · have hnil : chunks = [] := List.isEmpty_iff.mp hc
      subst hnil
      rw [chunkBatches_nil]
      rfl
    · have hpos : 0 < chunks.length :=
        List.length_pos.mpr (by simpa using hc)
      rw [chunkBatches_cons hc, List.flatten_cons,
        ih _ (by rw [List.length_drop]; simp only [EMBEDDING_BATCH_SIZE]; omega),
        List.take_append_drop]

theorem generateEmbeddingsForPage_run
    (embedF : List String → Except String (List (List ℚ)))
    (splitText : String → List String) (mn : String) (dims : Nat)
    (page : PageForEmbedding) (store : List EmbeddingRow) (t : String)
    (htext : page.textContent = some t)
    (hne : (trimmedChars t).isEmpty = false)
    (hch : ¬(splitText t).isEmpty = true) :
    generateEmbeddingsForPage embedF splitText mn dims page store =
      processBatches embedF page mn dims (splitText t) 0
        (deleteEmbeddingsForPage store page.id) := by
  unfold generateEmbeddingsForPage
  rw [htext]
  simp only [hne, Bool.false_eq_true, if_false, hch]

theorem generateEmbeddingsForPage_nochunks
    (embedF : List String → Except String (List (List ℚ)))
    (splitText : String → List String) (mn : String) (dims : Nat)
    (page : PageForEmbedding) (store : List EmbeddingRow) (t : String)
    (htext : page.textContent = some t)
    (hne : (trimmedChars t).isEmpty = false)
    (hch : (splitText t).isEmpty = true) :
    generateEmbeddingsForPage embedF splitText mn dims page store =
      ⟨deleteEmbeddingsForPage store page.id, [], none⟩ := by
  unfold generateEmbeddingsForPage
  rw [htext]
  simp only [hne, Bool.false_eq_true, if_false, hch, if_true]

theorem filter_deleteEmbeddingsForPage (store : List EmbeddingRow)
    (pid : String) :
    (deleteEmbeddingsForPage store pid).filter
      (fun r => decide (r.pageId = pid)) = [] := by
  unfold deleteEmbeddingsForPage
  rw [List.filter_filter]
  apply List.filter_eq_nil_iff.mpr
  intro a ha
  simp

/-- C5: a successful regeneration of a page whose text splits into `N > 0`
chunks issues exactly `⌈N / 100⌉` embedding calls, each on at most 100
chunks and together covering every chunk exactly once in order, and
persists exactly `N` rows for the page. -/
theorem generateEmbeddingsForPage_batching
    (embedF : List String → Except String (List (List ℚ)))
    (splitText : String → List String) (mn : String) (dims : Nat)
    (page : PageForEmbedding) (store : List EmbeddingRow) (t : String)
    (htext : page.textContent = some t)
    (hne : (trimmedChars t).isEmpty = false)
    (hN : 0 < (splitText t).length)
    (hok : ∀ b, ∃ vs, embedF b = Except.ok vs ∧ vs.length = b.length) :
    (generateEmbeddingsForPage embedF splitText mn dims page store).calls.length
        = ((splitText t).length + (EMBEDDING_BATCH_SIZE - 1)) /
            EMBEDDING_BATCH_SIZE ∧
    (∀ b ∈ (generateEmbeddingsForPage embedF splitText mn dims page
        store).calls, b.length ≤ EMBEDDING_BATCH_SIZE) ∧
    (generateEmbeddingsForPage embedF splitText mn dims page
        store).calls.flatten = splitText t ∧
    ((generateEmbeddingsForPage embedF splitText mn dims page
        store).store.filter (fun r => decide (r.pageId = page.id))).length
      = (splitText t).length ∧
    (generateEmbeddingsForPage embedF splitText mn dims page store).err
      = none := by
  have hch : ¬(splitText t).isEmpty = true := by
    intro h
    rw [List.isEmpty_iff.mp h] at hN
    exact absurd hN (by simp)
  rw [generateEmbeddingsForPage_run embedF splitText mn dims page store t
    htext hne hch]
  obtain ⟨rs, hrun, hidx, htexts, hembs, hall⟩ :=
    processBatches_ok_spec embedF page mn dims hok (splitText t).length
      (splitText t) 0 (deleteEmbeddingsForPage store page.id) le_rfl
  rw [hrun]
  refine ⟨?_, ?_, ?_, ?_, rfl⟩
  · exact chunkBatches_length (splitText t).length (splitText t) le_rfl
  · intro b hb
    exact chunkBatches_batch_le (splitText t).length (splitText t) le_rfl b hb
  · exact chunkBatches_flatten (splitText t).length (splitText t) le_rfl
  · show ((deleteEmbeddingsForPage store page.id ++ rs).filter _).length = _
    rw [List.filter_append, filter_deleteEmbeddingsForPage,
      List.filter_eq_self.mpr (fun r hr => decide_eq_true (hall r hr).1),
      List.nil_append]
    have hlen := congrArg List.length htexts
    rw [List.length_map] at hlen
    exact hlen

/-- C6: after a successful regeneration producing `N` chunks, the chunk
indices stored for the page are exactly `0..N-1`, contiguous with no gaps
and no duplicates, across all batches of the run. -/
theorem generateEmbeddingsForPage_indices_contiguous
    (embedF : List String → Except String (List (List ℚ)))
    (splitText : String → List String) (mn : String) (dims : Nat)
    (page : PageForEmbedding) (store : List EmbeddingRow) (t : String)
    (htext : page.textContent = some t)
    (hne : (trimmedChars t).isEmpty = false)
    (hok : ∀ b, ∃ vs, embedF b = Except.ok vs ∧ vs.length = b.length) :
    ((generateEmbeddingsForPage embedF splitText mn dims page
        store).store.filter (fun r => decide (r.pageId = page.id))).map
      (fun r => r.chunkIndex) = List.range (splitText t).length := by
  by_cases hch : (splitText t).isEmpty
  · rw [generateEmbeddingsForPage_nochunks embedF splitText mn dims page
      store t htext hne hch]
    show ((deleteEmbeddingsForPage store page.id).filter _).map _ = _
    rw [filter_deleteEmbeddingsForPage, List.isEmpty_iff.mp hch]
    rfl
  · rw [generateEmbeddingsForPage_run embedF splitText mn dims page store t
      htext hne hch]
    obtain ⟨rs, hrun, hidx, htexts, hembs, hall⟩ :=
      processBatches_ok_spec embedF page mn dims hok (splitText t).length
        (splitText t) 0 (deleteEmbeddingsForPage store page.id) le_rfl
    rw [hrun]
    show ((deleteEmbeddingsForPage store page.id ++ rs).filter _).map _ = _
    rw [List.filter_append, filter_deleteEmbeddingsForPage,
      List.filter_eq_self.mpr (fun r hr => decide_eq_true (hall r hr).1),
      List.nil_append, hidx]
    simp [List.range'_eq_map_range]

/-- C7: regenerating a page whose text is null, empty, or whitespace-only
returns with no effect: the store is exactly what it was, no rows deleted
or inserted, and no embedding call is made. -/
theorem generateEmbeddingsForPage_empty_text_noop
    (embedF : List String → Except String (List (List ℚ)))
    (splitText : String → List String) (mn : String) (dims : Nat)
    (page : PageForEmbedding) (store : List EmbeddingRow)
    (h : page.textContent = none ∨
      ∃ t, page.textContent = some t ∧ (trimmedChars t).isEmpty = true) :
    generateEmbeddingsForPage embedF splitText mn dims page store =
      ⟨store, [], none⟩ := by
  rcases h with h | ⟨t, ht, htrim⟩
  · unfold generateEmbeddingsForPage
    simp only [h]
  · unfold generateEmbeddingsForPage
    simp only [ht]
    rw [if_pos htrim]

/-- Witness for C7: a page whose text is null. -/
theorem generateEmbeddingsForPage_empty_text_noop_witness :
    ((⟨"p", "s", "w", none⟩ : PageForEmbedding).textContent = none ∨
      ∃ t, (⟨"p", "s", "w", none⟩ : PageForEmbedding).textContent = some t ∧
        (trimmedChars t).isEmpty = true) ∧
    generateEmbeddingsForPage (fun b => Except.ok (b.map fun _ => []))
      (fun t => [t]) "m" 1 ⟨"p", "s", "w", none⟩
      [⟨"q", "s", "w", "m", 1, [0], 0, 0, 2, "qq"⟩] =
      ⟨[⟨"q", "s", "w", "m", 1, [0], 0, 0, 2, "qq"⟩], [], none⟩ :=
  ⟨Or.inl rfl,
    generateEmbeddingsForPage_empty_text_noop _ _ _ _ _ _ (Or.inl rfl)⟩

/-- C9: every row in the store after a regeneration is either a
pre-existing row or an inserted row whose chunk start offset is 0 and
whose chunk length equals the length of the chunk text stored in the
metadata; the start offset therefore never locates the chunk in the
document. -/
theorem generateEmbeddingsForPage_rows_shape
    (embedF : List String → Except String (List (List ℚ)))
    (splitText : String → List String) (mn : String) (dims : Nat)
    (page : PageForEmbedding) (store : List EmbeddingRow) :
    ∀ r ∈ (generateEmbeddingsForPage embedF splitText mn dims page
        store).store,
      r ∈ store ∨ (r.chunkStart = 0 ∧
        r.chunkLength = r.metadataText.length) := by
  intro r hr
  unfold generateEmbeddingsForPage at hr
  cases htc : page.textContent with
  | none =>
    simp only [htc] at hr
    exact Or.inl hr
  | some t =>
    simp only [htc] at hr
    by_cases htrim : (trimmedChars t).isEmpty
    · rw [if_pos htrim] at hr
      exact Or.inl hr
    · rw [if_neg htrim] at hr
      by_cases hch : (splitText t).isEmpty
      · rw [if_pos hch] at hr
        exact Or.inl (List.mem_of_mem_filter hr)
      · rw [if_neg hch] at hr
        have hm := mem_processBatches_store embedF page mn dims
          (splitText t).length (splitText t) 0
          (deleteEmbeddingsForPage store page.id) le_rfl r hr
        rcases hm with hstore | hprop
        · exact Or.inl (List.mem_of_mem_filter hstore)
        · exact Or.inr ⟨hprop.2.1, hprop.2.2⟩

/-- The error reported by the batch loop depends only on the chunks and
the embedding function, never on the store the loop started from. -/
theorem processBatches_err_indep
    (embedF : List String → Except String (List (List ℚ)))
    (page : PageForEmbedding) (mn : String) (dims : Nat) :
    ∀ n chunks i store store', chunks.length ≤ n →
      (processBatches embedF page mn dims chunks i store).err =
        (processBatches embedF page mn dims chunks i store').err := by
  intro n
  induction n with
  | zero =>
    intro chunks i store store' hle
    have hnil : chunks = [] := List.length_eq_zero.mp (Nat.le_zero.mp hle)
    subst hnil
    rw [processBatches_nil, processBatches_nil]
  | succ n ih =>
    intro chunks i store store' hle
    by_cases hc : chunks.isEmpty
    · have hnil : chunks = [] := List.isEmpty_iff.mp hc
      subst hnil
      rw [processBatches_nil, processBatches_nil]
    · have hpos : 0 < chunks.length :=
        List.length_pos.mpr (by simpa using hc)
      rcases hemb : embedF (chunks.take EMBEDDING_BATCH_SIZE) with e | vs
      · rw [processBatches_cons_err page mn dims hc hemb i store,
          processBatches_cons_err page mn dims hc hemb i store']
      · rw [processBatches_cons_ok page mn dims hc hemb i store,
          processBatches_cons_ok page mn dims hc hemb i store']
        exact ih _ _ _ _ (by
          rw [List.length_drop]
          simp only [EMBEDDING_BATCH_SIZE]
          omega)

/-- Whether a page's regeneration throws depends only on the page, the
splitter and the embedding function — not on the store state. -/
theorem generateEmbeddingsForPage_err_indep
    (embedF : List String → Except String (List (List ℚ)))
    (splitText : String → List String) (mn : String) (dims : Nat)
    (page : PageForEmbedding) (store store' : List EmbeddingRow) :
    (generateEmbeddingsForPage embedF splitText mn dims page store).err =
      (generateEmbeddingsForPage embedF splitText mn dims page store').err := by
  unfold generateEmbeddingsForPage
  cases htc : page.textContent with
  | none => rfl
  | some t =>
    dsimp only
    by_cases htrim : (trimmedChars t).isEmpty
    · rw [if_pos htrim, if_pos htrim]
    · rw [if_neg htrim, if_neg htrim]
      by_cases hch : (splitText t).isEmpty
      · rw [if_pos hch, if_pos hch]
      · rw [if_neg hch, if_neg hch]
        exact processBatches_err_indep embedF page mn dims
          (splitText t).length (splitText t) 0 _ _ le_rfl

theorem workspace_foldl_trace
    (embedF : List String → Except String (List (List ℚ)))
    (splitText : String → List String) (mn : String) (dims : Nat) :
    ∀ (pages : List PageForEmbedding) store acc,
      (pages.foldl (workspacePageStep embedF splitText mn dims)
        (store, acc)).2 =
      acc ++ pages.map (fun p => (p, pageOutcome embedF splitText mn dims p)) := by
  intro pages
  induction pages with
  | nil =>
    intro store acc
    simp
  | cons p ps ih =>
    intro store acc
    rw [List.foldl_cons]
    have hstep : workspacePageStep embedF splitText mn dims (store, acc) p =
        ((workspacePageStep embedF splitText mn dims (store, acc) p).1,
          acc ++ [(p, pageOutcome embedF splitText mn dims p)]) := by
      unfold workspacePageStep pageOutcome
      cases htc : p.textContent with
      | none => rfl
      | some t =>
        dsimp only
        by_cases htrim : (trimmedChars t).isEmpty
        · rw [if_pos htrim, if_pos htrim]
        · rw [if_neg htrim, if_neg htrim]
          rw [generateEmbeddingsForPage_err_indep embedF splitText mn dims p
            store []]
    rw [hstep, ih, List.map_cons]
    simp

theorem pageOutcome_ne_skipped
    (embedF : List String → Except String (List (List ℚ)))
    (splitText : String → List String) (mn : String) (dims : Nat)
    (page : PageForEmbedding) (h : hasText page = true) :
    pageOutcome embedF splitText mn dims page ≠ PageOutcome.skipped := by
  unfold hasText at h
  unfold pageOutcome
  cases htc : page.textContent with
  | none =>
    rw [htc] at h
    exact absurd h (by simp)
  | some t =>
    rw [htc] at h
    dsimp only
    have htrim : ¬(trimmedChars t).isEmpty = true := by simpa using h
    rw [if_neg htrim]
    cases (generateEmbeddingsForPage embedF splitText mn dims page []).err with
    | none => simp
    | some e => simp

/-- C8: the workspace run's processing trace covers every page in order,
each with an outcome depending only on that page itself; every page with
text is attempted (never skipped), so an error on one page — caught by the
loop — never prevents the attempt on any other page. -/
theorem generateEmbeddingsForWorkspace_attempts_every_page
    (embedF : List String → Except String (List (List ℚ)))
    (splitText : String → List String) (mn : String) (dims : Nat)
    (pages : List PageForEmbedding) (store : List EmbeddingRow) :
    (generateEmbeddingsForWorkspace embedF splitText mn dims pages
        store).2 =
      pages.map (fun p => (p, pageOutcome embedF splitText mn dims p)) ∧
    ∀ p ∈ pages, hasText p = true →
      (p, pageOutcome embedF splitText mn dims p) ∈
        (generateEmbeddingsForWorkspace embedF splitText mn dims pages
          store).2 ∧
      pageOutcome embedF splitText mn dims p ≠ PageOutcome.skipped := by
  have htr : (generateEmbeddingsForWorkspace embedF splitText mn dims pages
      store).2 =
      pages.map (fun p => (p, pageOutcome embedF splitText mn dims p)) := by
    unfold generateEmbeddingsForWorkspace
    rw [workspace_foldl_trace]
    simp
  refine ⟨htr, ?_⟩
  intro p hp hht
  refine ⟨?_, pageOutcome_ne_skipped embedF splitText mn dims p hht⟩
  rw [htr]
  exact List.mem_map_of_mem _ hp

/-- C10: the client license check is the constant `true`, and the
workspace atom getter returns the stored workspace with `hasLicenseKey`
forced to `true` whenever any workspace is present, independent of the
stored value. -/
theorem useLicense_always_true (currentUser : Option ICurrentUser) :
    useLicense currentUser = true ∧
    ∀ w, (currentUser.bind fun cu => cu.workspace) = some w →
      workspaceAtomGet currentUser = some { w with hasLicenseKey := true } := by
  refine ⟨rfl, ?_⟩
  intro w hw
  unfold workspaceAtomGet
  simp only [hw]

/-- Witness for C10: a stored workspace whose `hasLicenseKey` is `false`
still comes back with `hasLicenseKey = true`. -/
theorem useLicense_always_true_witness :
    useLicense (some ⟨"u", some ⟨"w1", false⟩⟩) = true ∧
    workspaceAtomGet (some ⟨"u", some ⟨"w1", false⟩⟩) = some ⟨"w1", true⟩ :=
  ⟨(useLicense_always_true (some ⟨"u", some ⟨"w1", false⟩⟩)).1,
    (useLicense_always_true (some ⟨"u", some ⟨"w1", false⟩⟩)).2
      ⟨"w1", false⟩ rfl⟩

set_option maxRecDepth 8000 in
/-- Witness for C5: a text splitting into 250 chunks, for which the run
makes `(250 + 99) / 100 = 3` embedding calls and persists 250 rows. -/
theorem generateEmbeddingsForPage_batching_witness :
    ((generateEmbeddingsForPage (fun b => Except.ok (b.map fun _ => []))
        (fun _ => List.replicate 250 "x") "m" 1 ⟨"p", "s", "w", some "hello"⟩
        []).calls.length
      = ((List.replicate 250 "x").length + (EMBEDDING_BATCH_SIZE - 1)) /
          EMBEDDING_BATCH_SIZE ∧
    (∀ b ∈ (generateEmbeddingsForPage (fun b => Except.ok (b.map fun _ => []))
        (fun _ => List.replicate 250 "x") "m" 1 ⟨"p", "s", "w", some "hello"⟩
        []).calls, b.length ≤ EMBEDDING_BATCH_SIZE) ∧
    (generateEmbeddingsForPage (fun b => Except.ok (b.map fun _ => []))
        (fun _ => List.replicate 250 "x") "m" 1 ⟨"p", "s", "w", some "hello"⟩
        []).calls.flatten = List.replicate 250 "x" ∧
    ((generateEmbeddingsForPage (fun b => Except.ok (b.map fun _ => []))
        (fun _ => List.replicate 250 "x") "m" 1 ⟨"p", "s", "w", some "hello"⟩
        []).store.filter (fun r => decide (r.pageId = "p"))).length
      = (List.replicate 250 "x").length ∧
    (generateEmbeddingsForPage (fun b => Except.ok (b.map fun _ => []))
        (fun _ => List.replicate 250 "x") "m" 1 ⟨"p", "s", "w", some "hello"⟩
        []).err = none) ∧
    ((List.replicate 250 "x").length + (EMBEDDING_BATCH_SIZE - 1)) /
        EMBEDDING_BATCH_SIZE = 3 :=
  ⟨generateEmbeddingsForPage_batching (fun b => Except.ok (b.map fun _ => []))
      (fun _ => List.replicate 250 "x") "m" 1 ⟨"p", "s", "w", some "hello"⟩
      [] "hello" rfl (by decide) (by norm_num)
      (fun b => ⟨b.map fun _ => [], rfl, by rw [List.length_map]⟩),
    by norm_num [EMBEDDING_BATCH_SIZE]⟩

/-- Witness for C6: a two-chunk document whose stored chunk indices come
out as exactly `[0, 1]`. -/
theorem generateEmbeddingsForPage_indices_contiguous_witness :
    ((generateEmbeddingsForPage (fun b => Except.ok (b.map fun _ => []))
        (fun _ => ["a", "b"]) "m" 1 ⟨"p", "s", "w", some "hi"⟩
        []).store.filter (fun r => decide (r.pageId = "p"))).map
      (fun r => r.chunkIndex) = List.range 2 :=
  generateEmbeddingsForPage_indices_contiguous
    (fun b => Except.ok (b.map fun _ => [])) (fun _ => ["a", "b"]) "m" 1
    ⟨"p", "s", "w", some "hi"⟩ [] "hi" rfl (by decide)
    (fun b => ⟨b.map fun _ => [], rfl, by rw [List.length_map]⟩)

/-- Witness for C9: the single row written for a one-chunk document has
chunk start 0 and chunk length equal to its metadata text's length. -/
theorem generateEmbeddingsForPage_rows_shape_witness :
    (⟨"p", "s", "w", "m", 1, [], 0, 0, 2, "hi"⟩ : EmbeddingRow) ∈
        ([] : List EmbeddingRow) ∨
      ((⟨"p", "s", "w", "m", 1, [], 0, 0, 2, "hi"⟩ : EmbeddingRow).chunkStart
          = 0 ∧
        (⟨"p", "s", "w", "m", 1, [], 0, 0, 2, "hi"⟩ : EmbeddingRow).chunkLength
          = (⟨"p", "s", "w", "m", 1, [], 0, 0, 2,
              "hi"⟩ : EmbeddingRow).metadataText.length) :=
  generateEmbeddingsForPage_rows_shape (fun b => Except.ok (b.map fun _ => []))
    (fun t => [t]) "m" 1 ⟨"p", "s", "w", some "hi"⟩ []
    ⟨"p", "s", "w", "m", 1, [], 0, 0, 2, "hi"⟩
    (by
      simp +decide [generateEmbeddingsForPage, trimmedChars, processBatches,
        EMBEDDING_BATCH_SIZE, batchRows, deleteEmbeddingsForPage])

/-- Witness for C8: a failing first page followed by a succeeding second
page; the run's trace covers both pages, the first failed, the second
processed. -/
theorem generateEmbeddingsForWorkspace_attempts_every_page_witness :
    (generateEmbeddingsForWorkspace
        (fun b => if b = ["bad"] then Except.error "boom"
          else Except.ok (b.map fun _ => []))
        (fun t => [t]) "m" 1
        [⟨"p1", "s", "w", some "bad"⟩, ⟨"p2", "s", "w", some "good"⟩]
        []).2 =
      [⟨"p1", "s", "w", some "bad"⟩,
        ⟨"p2", "s", "w", some "good"⟩].map (fun p => (p,
          pageOutcome
            (fun b => if b = ["bad"] then Except.error "boom"
              else Except.ok (b.map fun _ => []))
            (fun t => [t]) "m" 1 p)) ∧
    ∀ p ∈ [⟨"p1", "s", "w", some "bad"⟩,
        (⟨"p2", "s", "w", some "good"⟩ : PageForEmbedding)],
      hasText p = true →
      (p, pageOutcome
          (fun b => if b = ["bad"] then Except.error "boom"
            else Except.ok (b.map fun _ => []))
          (fun t => [t]) "m" 1 p) ∈
        (generateEmbeddingsForWorkspace
          (fun b => if b = ["bad"] then Except.error "boom"
            else Except.ok (b.map fun _ => []))
          (fun t => [t]) "m" 1
          [⟨"p1", "s", "w", some "bad"⟩, ⟨"p2", "s", "w", some "good"⟩]
          []).2 ∧
      pageOutcome
          (fun b => if b = ["bad"] then Except.error "boom"
            else Except.ok (b.map fun _ => []))
          (fun t => [t]) "m" 1 p ≠ PageOutcome.skipped :=
  generateEmbeddingsForWorkspace_attempts_every_page
    (fun b => if b = ["bad"] then Except.error "boom"
      else Except.ok (b.map fun _ => []))
    (fun t => [t]) "m" 1
    [⟨"p1", "s", "w", some "bad"⟩, ⟨"p2", "s", "w", some "good"⟩] []

end Mindnest
